import Mathlib

/-!
Verification of the match-transformer core (structural type lattice,
match-table operations and the decision-tree compiler) against its
natural-language specification.

The TypeScript sources are shallowly embedded:

* JavaScript objects of the discriminated-union style become inductive types.
* `Map<string, Union>` becomes an association list `List (String × Union)`
  with insertion-ordered `get`/`set`/`has` operations mirroring the JS `Map`
  semantics (the source only ever builds maps with distinct keys).
* JavaScript `number` literal payloads are carried as `Int`: the development
  only ever compares literal payloads for strict equality, and every payload
  appearing in the claims is an integer.
* fallible code (`undefined` results) is embedded with `Option`; code paths
  that throw (failed `assert`, member access on `undefined`) are embedded
  with `Except Unit`.
* the genuinely mutually recursive functions of `type.ts` (equality,
  subtyping, intersection) recurse through nested unions; they are embedded
  with an explicit fuel argument so that they stay kernel-executable, and the
  exported wrappers supply a fuel computed from the sizes of the arguments
  (one unit of fuel is spent per nesting level, so any bound at least the
  combined structural size is sufficient; no theorem below depends on the
  adequacy of the bound, since every statement refers to the very same
  fueled functions the embedded operations call).
-/

namespace MT

/-- Literal from src/src/type.ts: number, string, boolean, bigint
(sign and base-10 digits), undefined and null. -/
inductive Literal where
  | num (value : Int)
  | str (value : String)
  | bool (value : Bool)
  | bigint (negative : Bool) (base10Value : String)
  | undef
  | null
deriving Repr

/-- Primitive from src/src/type.ts. -/
inductive Primitive where
  | string
  | number
  | bigint
  | boolean
deriving Repr, DecidableEq

/-- Type from src/src/type.ts.  `object` carries its fields as an
insertion-ordered association list standing for the JS `Map`. -/
inductive Ty where
  | unknown
  | literal (literal : Literal)
  | primitive (primitive : Primitive)
  | tuple (elements : List (List Ty))
  | array (element : List Ty)
  | object (fields : List (String × List Ty))
  | record (value : List Ty)
deriving Repr

/-- A Union is an array of types (src/src/type.ts). -/
abbrev Union := List Ty

/-- Accessor from src/src/type.ts.  Indices are naturals: the source only
ever builds them from tuple element positions. -/
inductive Accessor where
  | property (name : String)
  | index (index : Nat)
  | arrayElement
  | recordValues
deriving Repr, DecidableEq

/-- An Occurrence is a path of accessors (src/src/type.ts). -/
abbrev Occurrence := List Accessor

/-- JS `Map.get` on the association-list embedding of `Map<string, Union>`. -/
def fieldsGet (fields : List (String × Union)) (k : String) : Option Union :=
  (fields.find? (fun f => f.1 == k)).map (fun f => f.2)

/-- JS `Map.has`. -/
def fieldsHas (fields : List (String × Union)) (k : String) : Bool :=
  fields.any (fun f => f.1 == k)

/-- JS `Map.set`: replaces the value at an existing key in place, otherwise
appends the binding at the end (insertion order). -/
def fieldsSet (fields : List (String × Union)) (k : String) (v : Union) :
    List (String × Union) :=
  if fieldsHas fields k then
    fields.map (fun f => if f.1 == k then (f.1, v) else f)
  else
    fields ++ [(k, v)]

/-- literalEqual from src/src/type.ts. -/
def literalEqual (a b : Literal) : Bool :=
  match a with
  | .num v => match b with | .num w => v == w | _ => false
  | .str v => match b with | .str w => v == w | _ => false
  | .bool v => match b with | .bool w => v == w | _ => false
  | .bigint n v =>
    match b with | .bigint m w => n == m && v == w | _ => false
  | .undef => match b with | .undef => true | _ => false
  | .null => match b with | .null => true | _ => false

/-- primitiveEqual from src/src/type.ts. -/
def primitiveEqual (a b : Primitive) : Bool :=
  a == b

mutual

/-- Structural size of a type; used only to compute sufficient fuel for the
fueled recursions below. -/
def tySize : Ty → Nat
  | .unknown => 1
  | .literal _ => 1
  | .primitive _ => 1
  | .tuple elements => 1 + unionListSize elements
  | .array element => 1 + unionSize element
  | .object fields => 1 + fieldsSize fields
  | .record value => 1 + unionSize value

/-- Size of a union (see tySize). -/
def unionSize : List Ty → Nat
  | [] => 1
  | t :: ts => 1 + tySize t + unionSize ts

/-- Size of a list of unions (see tySize). -/
def unionListSize : List (List Ty) → Nat
  | [] => 1
  | u :: us => 1 + unionSize u + unionListSize us

/-- Size of an object field list (see tySize). -/
def fieldsSize : List (String × List Ty) → Nat
  | [] => 1
  | f :: fs => 1 + unionSize f.2 + fieldsSize fs

end

mutual

/-- typeEqual from src/src/type.ts, with fuel (one unit per nesting level). -/
def typeEqualF : Nat → Ty → Ty → Bool
  | 0, _, _ => false
  | n + 1, a, b =>
    match a with
    | .unknown => match b with | .unknown => true | _ => false
    | .literal la => match b with | .literal lb => literalEqual la lb | _ => false
    | .primitive pa =>
      match b with | .primitive pb => primitiveEqual pa pb | _ => false
    | .tuple ea => match b with | .tuple eb => unionAllEqualF n ea eb | _ => false
    | .array ea => match b with | .array eb => unionEqualF n ea eb | _ => false
    | .object fa =>
      match b with | .object fb => objectFieldsEqualF n fa fb | _ => false
    | .record va => match b with | .record vb => unionEqualF n va vb | _ => false

/-- unionEqual from src/src/type.ts: multiset equality, removing the first
match of each element of the left union from (a copy of) the right union. -/
def unionEqualF : Nat → List Ty → List Ty → Bool
  | 0, _, _ => false
  | n + 1, a, b => a.length == b.length && unionMatchF n a b

/-- The matching loop of unionEqual: every element of the first list removes
its first typeEqual partner from the second list. -/
def unionMatchF : Nat → List Ty → List Ty → Bool
  | 0, _, _ => false
  | _ + 1, [], _ => true
  | n + 1, t :: ts, b =>
    match removeFirstEqF n t b with
    | none => false
    | some b1 => unionMatchF n ts b1

/-- Removes the first element typeEqual to the given type, returning none
when there is no such element. -/
def removeFirstEqF : Nat → Ty → List Ty → Option (List Ty)
  | 0, _, _ => none
  | _ + 1, _, [] => none
  | n + 1, t, x :: xs =>
    if typeEqualF n t x then
      some xs
    else
      match removeFirstEqF n t xs with
      | none => none
      | some ys => some (x :: ys)

/-- unionAllEqual from src/src/type.ts: pairwise unionEqual of two lists of
unions of equal length. -/
def unionAllEqualF : Nat → List (List Ty) → List (List Ty) → Bool
  | 0, _, _ => false
  | n + 1, as_, bs =>
    as_.length == bs.length &&
      (as_.zip bs).all (fun p => unionEqualF n p.1 p.2)

/-- objectFieldsEqual from src/src/type.ts: equal key sets with pairwise
unionEqual values (the JS Map sizes agree and every key of the first map is
present in the second with an equal union). -/
def objectFieldsEqualF : Nat → List (String × List Ty) → List (String × List Ty) → Bool
  | 0, _, _ => false
  | n + 1, a, b =>
    a.length == b.length &&
      a.all (fun f =>
        match fieldsGet b f.1 with
        | none => false
        | some bv => unionEqualF n f.2 bv)

end

/-- typeEqual from src/src/type.ts (fuel instantiated; see module comment). -/
def typeEqual (a b : Ty) : Bool :=
  typeEqualF (tySize a + tySize b) a b

/-- unionEqual from src/src/type.ts (fuel instantiated). -/
def unionEqual (a b : Union) : Bool :=
  unionEqualF (unionSize a + unionSize b) a b

/-- unionDedupe from src/src/type.ts: keeps the first occurrence of each
type up to typeEqual. -/
def unionDedupe (u : Union) : Union :=
  go u []
where
  /-- The loop of unionDedupe, accumulating the deduplicated union. -/
  go : List Ty → Union → Union
  | [], acc => acc
  | t1 :: ts, acc =>
    if acc.any (fun t2 => typeEqual t1 t2) then
      go ts acc
    else
      go ts (acc ++ [t1])

/-- unionFlatten from src/src/type.ts: concatenate then dedupe. -/
def unionFlatten (us : List Union) : Union :=
  unionDedupe us.flatten

/-- literalIsSubtypeOfPrimitive from src/src/type.ts. -/
def literalIsSubtypeOfPrimitive (a : Literal) (b : Primitive) : Bool :=
  match a with
  | .num _ => b == .number
  | .str _ => b == .string
  | .bool _ => b == .boolean
  | .bigint _ _ => b == .bigint
  | .undef => false
  | .null => false

mutual

/-- typeIsSubtype from src/src/type.ts, with fuel (one unit per nesting
level): cases on the kind of the right-hand type. -/
def typeIsSubtypeF : Nat → Ty → Ty → Bool
  | 0, _, _ => false
  | n + 1, a, b =>
    match b with
    | .unknown => true
    | .literal lb =>
      match a with | .literal la => literalEqual la lb | _ => false
    | .primitive pb =>
      match a with
      | .literal la => literalIsSubtypeOfPrimitive la pb
      | .primitive pa => primitiveEqual pa pb
      | _ => false
    | .tuple eb =>
      match a with | .tuple ea => tupleIsSubtypeF n ea eb | _ => false
    | .array ub =>
      match a with
      | .tuple ea => unionIsSubtypeF n (unionFlatten ea) ub
      | .array ua => unionIsSubtypeF n ua ub
      | _ => false
    | .object fb =>
      match a with | .object fa => objectIsSubtypeF n fa fb | _ => false
    | .record vb =>
      match a with
      | .object fa => unionIsSubtypeF n (unionFlatten (fa.map (fun f => f.2))) vb
      | .record va => unionIsSubtypeF n va vb
      | _ => false

/-- tupleIsSubtype from src/src/type.ts: equal lengths and pairwise
unionIsSubtype of the elements. -/
def tupleIsSubtypeF : Nat → List (List Ty) → List (List Ty) → Bool
  | 0, _, _ => false
  | n + 1, as_, bs =>
    as_.length == bs.length &&
      (as_.zip bs).all (fun p => unionIsSubtypeF n p.1 p.2)

/-- objectIsSubtype from src/src/type.ts.  NOTE: faithful to the source, it
iterates over the fields of the FIRST map, requiring each to be present in
the second with a subtype union (the spec instead describes the converse,
width subtyping). -/
def objectIsSubtypeF : Nat → List (String × List Ty) → List (String × List Ty) → Bool
  | 0, _, _ => false
  | n + 1, a, b =>
    a.all (fun f =>
      match fieldsGet b f.1 with
      | none => false
      | some bv => unionIsSubtypeF n f.2 bv)

/-- unionIsSubtype from src/src/type.ts: every type on the left is a
subtype of some type on the right. -/
def unionIsSubtypeF : Nat → List Ty → List Ty → Bool
  | 0, _, _ => false
  | n + 1, a, b => a.all (fun at_ => b.any (fun bt => typeIsSubtypeF n at_ bt))

end

/-- typeIsSubtype from src/src/type.ts (fuel instantiated; see module
comment). -/
def typeIsSubtype (a b : Ty) : Bool :=
  typeIsSubtypeF (tySize a + tySize b) a b

/-- unionIsSubtype from src/src/type.ts (fuel instantiated). -/
def unionIsSubtype (a b : Union) : Bool :=
  unionIsSubtypeF (unionSize a + unionSize b) a b

/-- typeMinima from src/src/type.ts: keeps the members with no strict
subtype elsewhere in the list (a member t2 with typeIsSubtype t2 t1 and not
typeEqual t1 t2 disqualifies t1). -/
def typeMinima (ts : List Ty) : List Ty :=
  ts.filter (fun t1 =>
    ts.all (fun t2 => !(typeIsSubtype t2 t1) || typeEqual t1 t2))

/-- typeMaxima from src/src/type.ts: keeps the members with no strict
supertype elsewhere in the list. -/
def typeMaxima (ts : List Ty) : List Ty :=
  ts.filter (fun t1 =>
    ts.all (fun t2 => !(typeIsSubtype t1 t2) || typeEqual t1 t2))

mutual

/-- typeIntersection from src/src/type.ts, with fuel: undefined (none) on
incompatible constructors. -/
def typeIntersectionF : Nat → Ty → Ty → Option Ty
  | 0, _, _ => none
  | n + 1, a, b =>
    match a with
    | .unknown => some b
    | .literal _ =>
      if typeIsSubtype a b then some a
      else if typeIsSubtype b a then some b
      else none
    | .primitive _ =>
      if typeIsSubtype a b then some a
      else if typeIsSubtype b a then some b
      else none
    | .tuple ea =>
      match b with
      | .tuple eb =>
        if ea.length == eb.length then
          some (.tuple ((ea.zip eb).map (fun p => unionIntersectionF n p.1 p.2)))
        else
          none
      | _ => none
    | .array ua =>
      match b with
      | .array ub => some (.array (unionIntersectionF n ua ub))
      | _ => none
    | .object fa =>
      match b with
      | .object fb => some (.object (intersectFieldsF n fa fb))
      | _ => none
    | .record va =>
      match b with
      | .record vb => some (.record (unionIntersectionF n va vb))
      | _ => none

/-- The object case of typeIntersection: start from the first map and fold
in the fields of the second, intersecting unions at common keys (fueled
like the rest of the family, one unit per processed field). -/
def intersectFieldsF : Nat → List (String × List Ty) →
    List (String × List Ty) → List (String × List Ty)
  | 0, fa, _ => fa
  | _ + 1, fa, [] => fa
  | n + 1, fa, (bk, bv) :: rest =>
    match fieldsGet fa bk with
    | none => intersectFieldsF n (fieldsSet fa bk bv) rest
    | some u =>
      intersectFieldsF n (fieldsSet fa bk (unionIntersectionF n u bv)) rest

/-- unionIntersection from src/src/type.ts, with fuel: all pairwise defined
intersections, left union outermost. -/
def unionIntersectionF : Nat → List Ty → List Ty → List Ty
  | 0, _, _ => []
  | n + 1, a, b =>
    a.flatMap (fun at_ => b.filterMap (fun bt => typeIntersectionF n at_ bt))

end

/-- typeIntersection from src/src/type.ts (fuel instantiated). -/
def typeIntersection (a b : Ty) : Option Ty :=
  typeIntersectionF (tySize a + tySize b) a b

/-- unionIntersection from src/src/type.ts (fuel instantiated). -/
def unionIntersection (a b : Union) : Union :=
  unionIntersectionF (unionSize a + unionSize b) a b

/-- objectFieldNamesEqual from src/src/type.ts: equal key sets (sizes agree
and every key of the first map is present in the second). -/
def objectFieldNamesEqual (a b : List (String × List Ty)) : Bool :=
  a.length == b.length && a.all (fun f => fieldsHas b f.1)

/-- typeEqualConstructor from src/src/type.ts: compares only the outer
shape of the two types. -/
def typeEqualConstructor (a b : Ty) : Bool :=
  match a with
  | .unknown => match b with | .unknown => true | _ => false
  | .literal la => match b with | .literal lb => literalEqual la lb | _ => false
  | .primitive pa =>
    match b with | .primitive pb => primitiveEqual pa pb | _ => false
  | .tuple ea =>
    match b with | .tuple eb => ea.length == eb.length | _ => false
  | .array _ => match b with | .array _ => true | _ => false
  | .object fa =>
    match b with | .object fb => objectFieldNamesEqual fa fb | _ => false
  | .record _ => match b with | .record _ => true | _ => false

/-- typeAccessUnion from src/src/type.ts: the union reachable by one
accessor step, none when the accessor is structurally incompatible. -/
def typeAccessUnion (t : Ty) (a : Accessor) : Option Union :=
  match a with
  | .property name =>
    match t with
    | .unknown => some [.unknown]
    | .object fields =>
      match fieldsGet fields name with
      | none => some [.unknown]
      | some value => some value
    | .record value => some value
    | _ => none
  | .index index =>
    match t with
    | .unknown => some [.unknown]
    | .tuple elements =>
      match elements[index]? with
      | none => some [.unknown]
      | some element => some element
    | .array element => some element
    | _ => none
  | .arrayElement =>
    match t with
    | .unknown => some [.unknown]
    | .array element => some element
    | .tuple elements => some (unionFlatten elements)
    | _ => none
  | .recordValues =>
    match t with
    | .unknown => some [.unknown]
    | .record value => some value
    | _ => none

/-- typeGetArguments from src/src/type.ts: the immediate (union, accessor)
children of a type. -/
def typeGetArguments (t : Ty) : List (Union × Accessor) :=
  match t with
  | .unknown => []
  | .literal _ => []
  | .primitive _ => []
  | .tuple elements =>
    elements.enum.map (fun p => (p.2, Accessor.index p.1))
  | .array element => [(element, .arrayElement)]
  | .object fields => fields.map (fun f => (f.2, Accessor.property f.1))
  | .record value => [(value, .recordValues)]

/-- makeObjectFieldsUnknown from src/src/type.ts. -/
def makeObjectFieldsUnknown (fields : List (String × List Ty)) :
    List (String × List Ty) :=
  fields.map (fun f => (f.1, [Ty.unknown]))

/-- typeMakeArgumentsUnknown from src/src/type.ts: same outer constructor,
every nested union replaced by the singleton unknown union. -/
def typeMakeArgumentsUnknown (t : Ty) : Ty :=
  match t with
  | .unknown => .unknown
  | .literal l => .literal l
  | .primitive p => .primitive p
  | .tuple elements => .tuple (elements.map (fun _ => [Ty.unknown]))
  | .array _ => .array [.unknown]
  | .object fields => .object (makeObjectFieldsUnknown fields)
  | .record _ => .record [.unknown]

/-- unionReplaceAt from src/src/type.ts: replaces the sub-union reachable
by the occurrence; constituents whose constructor disagrees with the head
accessor (and out-of-range tuple indices) are dropped.  The per-type step
(typeReplaceAt in the source) is inlined so that the recursion is
structural on the occurrence. -/
def unionReplaceAt (u : Union) (o : Occurrence) (replacement : Union) : Union :=
  match o with
  | [] => replacement
  | a :: o1 =>
    u.filterMap (fun t =>
      match a with
      | .property name =>
        match t with
        | .object fields =>
          match fieldsGet fields name with
          | none => some (.object (fieldsSet fields name replacement))
          | some union =>
            some (.object (fieldsSet fields name (unionReplaceAt union o1 replacement)))
        | _ => none
      | .index index =>
        match t with
        | .tuple elements =>
          if index >= elements.length then
            none
          else
            some (.tuple (elements.enum.map (fun p =>
              if p.1 == index then unionReplaceAt p.2 o1 replacement else p.2)))
        | _ => none
      | .arrayElement =>
        match t with
        | .array element => some (.array (unionReplaceAt element o1 replacement))
        | _ => none
      | .recordValues =>
        match t with
        | .record value => some (.record (unionReplaceAt value o1 replacement))
        | _ => none)

/-- exactlyOne from src/util.ts: the sole element of a singleton, none
otherwise. -/
def exactlyOne : List α → Option α
  | [t] => some t
  | _ => none

/-- cartesianProduct from src/util.ts, with the same enumeration order: the
i-th output picks index (i / divisor_j) % length_j from the j-th array,
where divisor_j is the product of the lengths of the earlier arrays (so the
first coordinate varies fastest). -/
def cartesianProduct [Inhabited α] (arrays : List (List α)) : List (List α) :=
  let n := arrays.foldl (fun acc array => acc * array.length) 1
  let divisors := arrays.scanl (fun acc array => acc * array.length) 1
  (List.range n).map (fun i =>
    (arrays.zip divisors).map (fun p => p.1.getD ((i / p.2) % p.1.length) default))

instance : Inhabited Ty := ⟨.unknown⟩

/-- MatchTable from src/match-table.ts. -/
structure MatchTable where
  input : Union
  occurrences : List Occurrence
  caseIndices : List Nat
  patternRows : List (List Union)
deriving Repr

/-- matchTableColumnCount from src/match-table.ts. -/
def matchTableColumnCount (m : MatchTable) : Nat :=
  m.occurrences.length

/-- matchTableRowCount from src/match-table.ts. -/
def matchTableRowCount (m : MatchTable) : Nat :=
  m.patternRows.length

/-- matchTableIsFail from src/match-table.ts. -/
def matchTableIsFail (m : MatchTable) : Bool :=
  matchTableRowCount m == 0

/-- matchTableSuccessCaseIndex from src/match-table.ts: the first case
index when the table has exactly one row of width zero. -/
def matchTableSuccessCaseIndex (m : MatchTable) : Option Nat :=
  match exactlyOne m.patternRows with
  | some [] => m.caseIndices[0]?
  | _ => none

/-- The children-collection loop of matchTableSpecializeSuccess: the
pattern accessed by every argument accessor of the checked type, none as
soon as one access is undefined (the source asserts this never happens). -/
def typeAccessUnionAll (t : Ty) : List (Union × Accessor) → Option (List Union)
  | [] => some []
  | arg :: rest =>
    match typeAccessUnion t arg.2 with
    | none => none
    | some u =>
      match typeAccessUnionAll t rest with
      | none => none
      | some us => some (u :: us)

/-- The row loop of matchTableSpecializeSuccess, over rows paired with
their case indices.  Yields ok none for the soft undefined returns (missing
or non-singleton pattern cell) and error for the assertion that
typeAccessUnion is defined. -/
def specializeSuccessRows (typeWithUnknownArguments : Ty)
    (typeArguments : List (Union × Accessor)) (columnIndex : Nat) :
    List (Nat × List Union) → Except Unit (Option (List (Nat × List Union)))
  | [] => .ok (some [])
  | (caseIndex, row) :: rest =>
    match row[columnIndex]? with
    | none => .ok none
    | some patternUnion =>
      match exactlyOne patternUnion with
      | none => .ok none
      | some patternType =>
        if !typeIsSubtype typeWithUnknownArguments
            (typeMakeArgumentsUnknown patternType) then
          specializeSuccessRows typeWithUnknownArguments typeArguments
            columnIndex rest
        else
          match typeAccessUnionAll patternType typeArguments with
          | none => .error ()
          | some children =>
            let newRow := row.take columnIndex ++ children ++
              row.drop (columnIndex + 1)
            match specializeSuccessRows typeWithUnknownArguments typeArguments
                columnIndex rest with
            | .error e => .error e
            | .ok none => .ok none
            | .ok (some out) => .ok (some ((caseIndex, newRow) :: out))

/-- matchTableSpecializeSuccess from src/match-table.ts.  When columnIndex
is out of bounds the source reads the undefined occurrence and then calls
unionReplaceAt on it, which throws a TypeError (embedded as error), despite
the doc comment promising undefined. -/
def matchTableSpecializeSuccess (m : MatchTable) (type_ : Ty)
    (columnIndex : Nat) : Except Unit (Option MatchTable) :=
  let typeWithUnknownArguments := typeMakeArgumentsUnknown type_
  let typeArguments := typeGetArguments type_
  match m.occurrences[columnIndex]? with
  | none => .error ()
  | some occurrence =>
    let modifiedInputType := unionReplaceAt m.input occurrence
      [typeWithUnknownArguments]
    let newOccurrences := m.occurrences.take columnIndex ++
      typeArguments.map (fun arg => occurrence ++ [arg.2]) ++
      m.occurrences.drop (columnIndex + 1)
    match specializeSuccessRows typeWithUnknownArguments typeArguments
        columnIndex (m.caseIndices.zip m.patternRows) with
    | .error e => .error e
    | .ok none => .ok none
    | .ok (some out) =>
      .ok (some
        { input := unionIntersection m.input modifiedInputType
          occurrences := newOccurrences
          caseIndices := out.map (fun r => r.1)
          patternRows := out.map (fun r => r.2) })

/-- The row loop of matchTableSpecializeFail: keeps the rows whose single
pattern at the column has a constructor different from the given type;
none for the soft undefined returns. -/
def specializeFailRows (type_ : Ty) (columnIndex : Nat) :
    List (Nat × List Union) → Option (List (Nat × List Union))
  | [] => some []
  | (caseIndex, row) :: rest =>
    match row[columnIndex]? with
    | none => none
    | some patternUnion =>
      match exactlyOne patternUnion with
      | none => none
      | some patternType =>
        match specializeFailRows type_ columnIndex rest with
        | none => none
        | some out =>
          if typeEqualConstructor type_ patternType then
            some out
          else
            some ((caseIndex, row) :: out)

/-- matchTableSpecializeFail from src/match-table.ts. -/
def matchTableSpecializeFail (m : MatchTable) (type_ : Ty)
    (columnIndex : Nat) : Option MatchTable :=
  match specializeFailRows type_ columnIndex
      (m.caseIndices.zip m.patternRows) with
  | none => none
  | some out =>
    some
      { input := m.input
        occurrences := m.occurrences
        caseIndices := out.map (fun r => r.1)
        patternRows := out.map (fun r => r.2) }

/-- matchTableExpand from src/match-table.ts: replaces each row by the
Cartesian product of its cells, one singleton-union row per combination,
repeating the case index. -/
def matchTableExpand (m : MatchTable) : MatchTable :=
  let out := (m.caseIndices.zip m.patternRows).flatMap (fun r =>
    (cartesianProduct r.2).map (fun types => (r.1, types.map (fun t => [t]))))
  { input := m.input
    occurrences := m.occurrences
    caseIndices := out.map (fun r => r.1)
    patternRows := out.map (fun r => r.2) }

/-- The shadowing test of matchTableRemove: every cell of the row is a
subunion of the corresponding cell of the earlier row. -/
def rowIsShadowedBy (row earlierRow : List Union) : Bool :=
  (row.zip earlierRow).all (fun p => unionIsSubtype p.1 p.2)

/-- matchTableRemove from src/match-table.ts: drops each row shadowed by
some earlier row of the original table. -/
def matchTableRemove (m : MatchTable) : MatchTable :=
  let out := (m.caseIndices.zip m.patternRows).enum.filterMap (fun r =>
    if (List.range r.1).all (fun j =>
        !rowIsShadowedBy r.2.2 (m.patternRows.getD j [])) then
      some r.2
    else
      none)
  { input := m.input
    occurrences := m.occurrences
    caseIndices := out.map (fun r => r.1)
    patternRows := out.map (fun r => r.2) }

/-- DecisionTree from src/src/decision-tree.ts. -/
inductive DecisionTree where
  | fail
  | success (caseIndex : Nat)
  | check (type_ : Ty) (occurrence : Occurrence)
      (success fail : DecisionTree)
deriving Repr

/-- Check from src/src/decision-tree.ts. -/
structure Check where
  type_ : Ty
  columnIndex : Nat
deriving Repr

/-- possibleChecks from src/src/decision-tree.ts: for each column, the
first minimum of the column with its arguments made unknown; undefined
(none) when a cell is not a singleton union or a column has no minimum. -/
def possibleChecks (m : MatchTable) : Option (List Check) :=
  (List.range (matchTableColumnCount m)).mapM (fun j => do
    let column ← m.patternRows.mapM (fun row => exactlyOne (row.getD j []))
    let firstMinimum ← (typeMinima column)[0]?
    pure { type_ := typeMakeArgumentsUnknown firstMinimum, columnIndex := j })

/-- isCheckSkippable from src/src/decision-tree.ts: the input refinement
already forces the checked constructor at the occurrence. -/
def isCheckSkippable (m : MatchTable) (c : Check) : Bool :=
  let o := m.occurrences.getD c.columnIndex []
  let newInput := unionReplaceAt m.input o [c.type_]
  unionIsSubtype m.input newInput

/-- findBestCheck from src/src/decision-tree.ts picks a random element; it
is embedded with an explicit choice function standing for the calls to
Math.random (the source index floor(length * random) is any index below the
length, here chooser cs % cs.length). -/
def findBestCheck (chooser : List Check → Nat) (cs : List Check) :
    Option Check :=
  if cs.length == 0 then none else cs[chooser cs % cs.length]?

/-- decisionTreeCompile from src/src/decision-tree.ts, embedded with fuel
for the non-structural recursion (error when the fuel runs out) and the
choice function of findBestCheck; failed assertions are error. -/
def decisionTreeCompile (chooser : List Check → Nat) :
    Nat → MatchTable → Except Unit DecisionTree
  | 0, _ => .error ()
  | fuel + 1, m =>
    if matchTableIsFail m then
      .ok .fail
    else
      match matchTableSuccessCaseIndex m with
      | some successCaseIndex => .ok (.success successCaseIndex)
      | none =>
        match possibleChecks m with
        | none => .error ()
        | some checks =>
          if checks.length == 0 then
            .error ()
          else
            let skippableChecks := checks.filter (isCheckSkippable m)
            if skippableChecks.length > 0 then
              match findBestCheck chooser skippableChecks with
              | none => .error ()
              | some c =>
                match matchTableSpecializeSuccess m c.type_ c.columnIndex with
                | .error e => .error e
                | .ok none => .error ()
                | .ok (some next) =>
                  decisionTreeCompile chooser fuel
                    (matchTableRemove (matchTableExpand next))
            else
              match findBestCheck chooser checks with
              | none => .error ()
              | some bestCheck =>
                match matchTableSpecializeSuccess m bestCheck.type_
                    bestCheck.columnIndex with
                | .error e => .error e
                | .ok none => .error ()
                | .ok (some specializedSuccessTable) =>
                  match matchTableSpecializeFail m bestCheck.type_
                      bestCheck.columnIndex with
                  | none => .error ()
                  | some specializedFailTable =>
                    match decisionTreeCompile chooser fuel
                        (matchTableRemove
                          (matchTableExpand specializedSuccessTable)),
                      decisionTreeCompile chooser fuel specializedFailTable with
                    | .ok s, .ok f =>
                      .ok (.check bestCheck.type_
                        (m.occurrences.getD bestCheck.columnIndex []) s f)
                    | .error e, _ => .error e
                    | _, .error e => .error e

/-- The entry point of the transformer (the visitor in the plugin): the
one-column table built from the case patterns is normalized by expand then
remove before compilation. -/
def decisionTreeCompileEntry (chooser : List Check → Nat) (fuel : Nat)
    (m : MatchTable) : Except Unit DecisionTree :=
  decisionTreeCompile chooser fuel (matchTableRemove (matchTableExpand m))

/-- Modelled from the spec: runtime JavaScript values (section 6 of the
spec).  The repository compiles to TypeScript syntax trees (ast.ts) and has
no runtime value datatype of its own, so values are modelled here: number,
string, boolean and bigint primitives, undefined, null, arrays (also
standing for tuples) and plain objects with insertion-ordered string
fields.  Number payloads are carried as Int as for Literal. -/
inductive Value where
  | num (n : Int)
  | str (s : String)
  | bool (b : Bool)
  | bigint (negative : Bool) (base10Value : String)
  | undef
  | null
  | arr (elements : List Value)
  | obj (fields : List (String × Value))
deriving Repr

/-- JS `Map`-like get on object values (first binding wins). -/
def valueFieldsGet (fields : List (String × Value)) (k : String) :
    Option Value :=
  (fields.find? (fun f => f.1 == k)).map (fun f => f.2)

/-- Modelled from the spec: strict equality of a runtime value with a
Literal (section 6: literal(l) is compiled to value === l; null and
undefined are distinct). -/
def valueEqualsLiteral (v : Value) (l : Literal) : Bool :=
  match l with
  | .num n => match v with | .num m => m == n | _ => false
  | .str s => match v with | .str t => t == s | _ => false
  | .bool b => match v with | .bool c => c == b | _ => false
  | .bigint n d =>
    match v with | .bigint m e => m == n && e == d | _ => false
  | .undef => match v with | .undef => true | _ => false
  | .null => match v with | .null => true | _ => false

/-- Modelled from the spec: typeof value === p (section 6). -/
def valueHasPrimitiveKind (v : Value) (p : Primitive) : Bool :=
  match p with
  | .string => match v with | .str _ => true | _ => false
  | .number => match v with | .num _ => true | _ => false
  | .bigint => match v with | .bigint _ _ => true | _ => false
  | .boolean => match v with | .bool _ => true | _ => false

mutual

/-- Modelled from the spec: membership of a runtime value in a type (the
typeOf(v) <: T relation of the correctness law, section 8, read through the
data-model semantics of section 3): literals by strict equality, primitives
by typeof kind, tuples as arrays of the right length with members in the
element unions, arrays elementwise, objects by presence of every field of
the type with the member in the field union (width: extra value fields are
allowed), records as objects all of whose values are in the value union.
Fueled like the other recursions through nested unions. -/
def valueHasTypeF : Nat → Value → Ty → Bool
  | 0, _, _ => false
  | n + 1, v, t =>
    match t with
    | .unknown => true
    | .literal l => valueEqualsLiteral v l
    | .primitive p => valueHasPrimitiveKind v p
    | .tuple elements =>
      match v with
      | .arr xs =>
        xs.length == elements.length &&
          (xs.zip elements).all (fun p => valueHasUnionF n p.1 p.2)
      | _ => false
    | .array element =>
      match v with
      | .arr xs => xs.all (fun x => valueHasUnionF n x element)
      | _ => false
    | .object fields =>
      match v with
      | .obj vfs =>
        fields.all (fun f =>
          match valueFieldsGet vfs f.1 with
          | none => false
          | some w => valueHasUnionF n w f.2)
      | _ => false
    | .record value =>
      match v with
      | .obj vfs => vfs.all (fun f => valueHasUnionF n f.2 value)
      | _ => false

/-- Modelled from the spec: membership of a value in a union (some member
type contains it). -/
def valueHasUnionF : Nat → Value → List Ty → Bool
  | 0, _, _ => false
  | n + 1, v, u => u.any (fun t => valueHasTypeF n v t)

end

/-- Membership of a value in a type (fuel instantiated). -/
def valueHasType (v : Value) (t : Ty) : Bool :=
  valueHasTypeF (tySize t) v t

/-- Membership of a value in a union (fuel instantiated). -/
def valueHasUnion (v : Value) (u : Union) : Bool :=
  u.any (fun t => valueHasType v t)

/-- Modelled from the spec: the outer-shape runtime test a check node
compiles to (section 6): literal strict equality, typeof for primitives,
isArray plus length for tuples, isArray for arrays, typeof object and not
null plus field presence for objects, typeof object and not null for
records, true for unknown. -/
def evalOuterTest (t : Ty) (v : Value) : Bool :=
  match t with
  | .unknown => true
  | .literal l => valueEqualsLiteral v l
  | .primitive p => valueHasPrimitiveKind v p
  | .tuple elements =>
    match v with | .arr xs => xs.length == elements.length | _ => false
  | .array _ => match v with | .arr _ => true | _ => false
  | .object fields =>
    match v with
    | .obj vfs => fields.all (fun f => (valueFieldsGet vfs f.1).isSome)
    | .null => false
    | _ => false
  | .record _ =>
    match v with | .obj _ => true | _ => false

/-- Modelled from the spec: walking an occurrence down a runtime value and
applying the outer test at the end (section 6).  A property step is guarded
by the JS in operator and passes when the field is absent; the in operator
throws on primitive, null and undefined operands (error); an index step is
plain element access, yielding undefined beyond the bounds; array-element
and record-values steps loop over the elements or field values and fail on
the first element failure. -/
def evalTestAtOccurrence (t : Ty) (o : Occurrence) (v : Value) :
    Except Unit Bool :=
  match o with
  | [] => .ok (evalOuterTest t v)
  | a :: o1 =>
    match a with
    | .property name =>
      match v with
      | .obj vfs =>
        match valueFieldsGet vfs name with
        | none => .ok true
        | some w => evalTestAtOccurrence t o1 w
      | .arr _ => .ok true
      | _ => .error ()
    | .index index =>
      match v with
      | .arr xs => evalTestAtOccurrence t o1 (xs.getD index .undef)
      | .obj vfs =>
        evalTestAtOccurrence t o1
          ((valueFieldsGet vfs (toString index)).getD .undef)
      | .str s =>
        evalTestAtOccurrence t o1
          (if h : index < s.length then
            .str (String.mk [s.data.get ⟨index, h⟩])
          else
            .undef)
      | .null => .error ()
      | .undef => .error ()
      | _ => evalTestAtOccurrence t o1 .undef
    | .arrayElement =>
      match v with
      | .arr xs =>
        (xs.mapM (fun x => evalTestAtOccurrence t o1 x)).map
          (fun bs => bs.all id)
      | .str s =>
        ((s.data.map (fun c => Value.str (String.mk [c]))).mapM
          (fun x => evalTestAtOccurrence t o1 x)).map (fun bs => bs.all id)
      | _ => .error ()
    | .recordValues =>
      match v with
      | .obj vfs =>
        ((vfs.map (fun f => f.2)).mapM
          (fun x => evalTestAtOccurrence t o1 x)).map (fun bs => bs.all id)
      | .arr xs =>
        (xs.mapM (fun x => evalTestAtOccurrence t o1 x)).map
          (fun bs => bs.all id)
      | .null => .error ()
      | .undef => .error ()
      | _ => .ok true

/-- The two leaf outcomes of running a compiled match. -/
inductive MatchOutcome where
  | fail
  | success (caseIndex : Nat)
deriving Repr, DecidableEq

/-- Modelled from the spec: evaluating a decision tree against a runtime
value (section 6): fail and success are leaves, a check node runs its
occurrence test and descends into the matching branch. -/
def evalDecisionTree (d : DecisionTree) (v : Value) :
    Except Unit MatchOutcome :=
  match d with
  | .fail => .ok .fail
  | .success caseIndex => .ok (.success caseIndex)
  | .check t o s f =>
    match evalTestAtOccurrence t o v with
    | .error e => .error e
    | .ok true => evalDecisionTree s v
    | .ok false => evalDecisionTree f v

/-- Modelled from the spec: the sequential reference semantics of the
correctness law (section 8): success at the smallest case index whose
pattern union contains the value, fail when there is none. -/
def sequentialMatchOutcome (cases : List Union) (v : Value) : MatchOutcome :=
  match cases.findIdx? (fun u => valueHasUnion v u) with
  | some k => .success k
  | none => .fail

mutual

/-- Modelled from the spec: the termination measure of section 4.3.6, the
number of type constructors of a type (the spec argues each success branch
consumes one pattern constructor). -/
def tyConstructorCount : Ty → Nat
  | .unknown => 1
  | .literal _ => 1
  | .primitive _ => 1
  | .tuple elements => 1 + unionListConstructorCount elements
  | .array element => 1 + unionConstructorCount element
  | .object fields => 1 + fieldsConstructorCount fields
  | .record value => 1 + unionConstructorCount value

/-- Constructor count of a union (see tyConstructorCount). -/
def unionConstructorCount : List Ty → Nat
  | [] => 0
  | t :: ts => tyConstructorCount t + unionConstructorCount ts

/-- Constructor count of a list of unions (see tyConstructorCount). -/
def unionListConstructorCount : List (List Ty) → Nat
  | [] => 0
  | u :: us => unionConstructorCount u + unionListConstructorCount us

/-- Constructor count of an object field list (see tyConstructorCount). -/
def fieldsConstructorCount : List (String × List Ty) → Nat
  | [] => 0
  | f :: fs => unionConstructorCount f.2 + fieldsConstructorCount fs

end

/-- Modelled from the spec: the total pattern size of a match table, the
sum of constructor counts across live cells (section 4.3.6). -/
def matchTablePatternSize (m : MatchTable) : Nat :=
  (m.patternRows.map (fun row =>
    (row.map unionConstructorCount).sum)).sum

/-- The well-formedness invariant of match tables (sections 3 and 8 of the
spec): every row as wide as the occurrence list, and as many case indices
as rows. -/
def MatchTable.WellFormed (m : MatchTable) : Prop :=
  m.caseIndices.length = m.patternRows.length ∧
    ∀ row ∈ m.patternRows, row.length = m.occurrences.length

/-- A chooser standing for the Math.random draws of findBestCheck that
always picks the first candidate (whenever the candidate list is a
singleton, every chooser gives this result). -/
def chooseFirst : List Check → Nat :=
  fun _ => 0

/-- The object type with a single numeric field a. -/
def objFieldA : Ty :=
  .object [("a", [.primitive .number])]

/-- The object type with a single numeric field b. -/
def objFieldB : Ty :=
  .object [("b", [.primitive .number])]

/-- The one-column match table of the case list
({a: number} to case 0, {b: number} to case 1) over an unknown input. -/
def overlapTable : MatchTable :=
  { input := [.unknown]
    occurrences := [[]]
    caseIndices := [0, 1]
    patternRows := [[[objFieldA]], [[objFieldB]]] }

/-- The runtime value with fields a (a string) and b (the number 5): it
matches the pattern of case 1 and not the pattern of case 0. -/
def overlapValue : Value :=
  .obj [("a", .str "s"), ("b", .num 5)]

/-- A one-row one-column table whose only pattern is the number
primitive. -/
def numberRowTable : MatchTable :=
  { input := [.unknown]
    occurrences := [[]]
    caseIndices := [0]
    patternRows := [[[.primitive .number]]] }

/-- The table of the pattern-size counterexample: one row, two columns,
the first cell a tuple with a two-way element union, the second cell the
boolean primitive. -/
def sizeCexTable : MatchTable :=
  { input := [.unknown]
    occurrences := [[.index 0], [.index 1]]
    caseIndices := [0]
    patternRows := [[[.tuple [[.primitive .number, .primitive .string]]],
      [.primitive .boolean]]] }

/-- The success-specialization of sizeCexTable at its tuple column. -/
def sizeCexNext : MatchTable :=
  { input := []
    occurrences := [[.index 0, .index 0], [.index 1]]
    caseIndices := [0]
    patternRows := [[[.primitive .number, .primitive .string],
      [.primitive .boolean]]] }

/-- A table with no columns: any column index is out of bounds. -/
def noColumnTable : MatchTable :=
  { input := [.unknown]
    occurrences := []
    caseIndices := [0]
    patternRows := [[]] }

/-- A table whose only cell is the empty union (not single-constructor). -/
def emptyCellTable : MatchTable :=
  { input := [.unknown]
    occurrences := [[]]
    caseIndices := [0]
    patternRows := [[[]]] }

/-- A one-element tuple type over the number primitive. -/
def tupNum : Ty :=
  .tuple [[.primitive .number]]

/-- A one-element tuple type over the union of the number primitive and the
literal 1: mutually subtype with tupNum but not typeEqual to it. -/
def tupNumOne : Ty :=
  .tuple [[.primitive .number, .literal (.num 1)]]

/-- C1: the decision tree compiled from the one-column table of the case
list ({a: number}, {b: number}) over an unknown input, evaluated at the
value {a: "s", b: 5} (which is of the input type and matches exactly the
pattern of case 1), yields fail, while the claim demands success at the
smallest matching case index, 1.  Every candidate-check list in this run is
a singleton, so the Math.random draws of findBestCheck cannot influence the
result. -/
theorem decisionTreeCompile_violates_first_match_law :
    (decisionTreeCompileEntry chooseFirst 10 overlapTable).map
      (fun t => evalDecisionTree t overlapValue) = .ok (.ok .fail) ∧
    sequentialMatchOutcome [[objFieldA], [objFieldB]] overlapValue =
      .success 1 ∧
    valueHasUnion overlapValue overlapTable.input = true := by
  refine ⟨?_, ?_, ?_⟩ <;> rfl

/-- C2 counterexample: with the pattern p the number primitive and the
checked type T the literal 1, makeArgumentsUnknown(T) is NOT a supertype of
makeArgumentsUnknown(p), so the claim demands that the row be dropped, yet
specializeSuccess keeps it (the code tests the converse direction,
subtype). -/
theorem specializeSuccess_keeps_row_claim_says_drop :
    typeIsSubtype (typeMakeArgumentsUnknown (Ty.primitive .number))
      (typeMakeArgumentsUnknown (Ty.literal (.num 1))) = false ∧
    matchTableSpecializeSuccess numberRowTable (Ty.literal (.num 1)) 0 =
      .ok (some
        { input := [.literal (.num 1)]
          occurrences := []
          caseIndices := [0]
          patternRows := [[]] }) := by
  refine ⟨?_, ?_⟩ <;> rfl

/-- C3: typeIsSubtype contradicts the claimed width subtyping on objects:
an object type with fields x and y is NOT accepted as a subtype of the
object type with the single field x (the claim demands it is), while the
empty object type IS accepted (the claim demands it is not, x being absent
from it). -/
theorem objectIsSubtype_contradicts_width_subtyping :
    typeIsSubtype
      (Ty.object [("x", [.primitive .number]), ("y", [.primitive .number])])
      (Ty.object [("x", [.primitive .number])]) = false ∧
    typeIsSubtype (Ty.object [])
      (Ty.object [("x", [.primitive .number])]) = true := by
  refine ⟨?_, ?_⟩ <;> rfl

/-- C4 counterexample: on sizeCexTable the compiler proposes the
non-skippable check (tuple([unknown]), 0) (it is the first candidate of
possibleChecks), and the success-branch table
remove(expand(specializeSuccess(m, T, 0))) has exactly the same total
pattern size (sum of constructor counts across live cells) as the table
itself, not a strictly smaller one. -/
theorem successBranch_does_not_decrease_pattern_size :
    possibleChecks sizeCexTable =
      some [{ type_ := .tuple [[.unknown]], columnIndex := 0 },
        { type_ := .primitive .boolean, columnIndex := 1 }] ∧
    isCheckSkippable sizeCexTable
      { type_ := .tuple [[.unknown]], columnIndex := 0 } = false ∧
    matchTableSpecializeSuccess sizeCexTable (.tuple [[.unknown]]) 0 =
      .ok (some sizeCexNext) ∧
    matchTablePatternSize (matchTableRemove (matchTableExpand sizeCexNext)) =
      matchTablePatternSize sizeCexTable := by
  refine ⟨?_, ?_, ?_, ?_⟩ <;> rfl

/-- C5: on a table with no columns (so column 0 is out of bounds),
specializeSuccess reads the undefined occurrence and throws (it calls
unionReplaceAt on undefined) instead of returning the promised soft
undefined; specializeFail does return the soft none, and so does
specializeSuccess when the precondition failure is a non-singleton cell
rather than an out-of-bounds column. -/
theorem specializeSuccess_throws_on_out_of_bounds_column :
    matchTableSpecializeSuccess noColumnTable (.primitive .number) 0 =
      .error () ∧
    matchTableSpecializeFail noColumnTable (.primitive .number) 0 = none ∧
    matchTableSpecializeSuccess emptyCellTable (.primitive .number) 0 =
      .ok none := by
  refine ⟨?_, ?_, ?_⟩ <;> rfl

/-- C6: unionIntersection([{a: number}], [{b: number}]) is the union
[{a: number, b: number}], whose member is not a subtype of any member of
either operand (objectIsSubtype rejects the extra field), so the result is
not a subunion of u as claimed. -/
theorem unionIntersection_not_subunion_of_operands :
    unionIntersection [objFieldA] [objFieldB] =
      [.object [("a", [.primitive .number]), ("b", [.primitive .number])]] ∧
    (unionIntersection [objFieldA] [objFieldB]).all
      (fun t => [objFieldA].any (fun s => typeIsSubtype t s)) = false ∧
    (unionIntersection [objFieldA] [objFieldB]).all
      (fun t => [objFieldB].any (fun s => typeIsSubtype t s)) = false := by
  refine ⟨?_, ?_, ?_⟩ <;> rfl

/-- C7 counterexample: tupNum and tupNumOne are mutually subtype but not
typeEqual, so neither is kept: typeMinima and typeMaxima of this non-empty
list are both empty, contradicting the claimed non-emptiness. -/
theorem typeMinima_empty_on_mutual_subtypes :
    typeIsSubtype tupNum tupNumOne = true ∧
    typeIsSubtype tupNumOne tupNum = true ∧
    typeEqual tupNum tupNumOne = false ∧
    typeMinima [tupNum, tupNumOne] = [] ∧
    typeMaxima [tupNum, tupNumOne] = [] := by
  refine ⟨?_, ?_, ?_, ?_, ?_⟩ <;> rfl

/-- C10: typeAccessUnion returns the singleton unknown union (not none) for
a property accessor missing from an object type and for a tuple index
accessor out of the tuple range. -/
theorem typeAccessUnion_absent_member_yields_unknown :
    (∀ fields name, fieldsGet fields name = none →
      typeAccessUnion (Ty.object fields) (.property name) =
        some [Ty.unknown]) ∧
    (∀ elements i, elements.length ≤ i →
      typeAccessUnion (Ty.tuple elements) (.index i) =
        some [Ty.unknown]) := by
  constructor
  · intro fields name h
    simp [typeAccessUnion, h]
  · intro elements i h
    simp [typeAccessUnion, List.getElem?_eq_none h]

/-- Witness for C10 at concrete inputs: the field y is absent from the
object type with field x, and index 0 is out of range of the empty
tuple. -/
theorem typeAccessUnion_absent_member_yields_unknown_witness :
    typeAccessUnion (Ty.object [("x", [.unknown])]) (.property "y") =
      some [Ty.unknown] ∧
    typeAccessUnion (Ty.tuple []) (.index 0) = some [Ty.unknown] :=
  ⟨typeAccessUnion_absent_member_yields_unknown.1 [("x", [.unknown])] "y" rfl,
    typeAccessUnion_absent_member_yields_unknown.2 [] 0 (Nat.zero_le 0)⟩

/-- C7 amended: the returned minima are pairwise incomparable under strict
subtyping (a member of typeMinima that is a subtype of another is typeEqual
to it), and dually for typeMaxima; the non-emptiness half of the claim is
dropped (see the counterexample: mutually-subtype unequal members leave
both lists empty). -/
theorem typeMinima_maxima_pairwise_incomparable :
    (∀ (ts : List Ty) (t1 t2 : Ty), t1 ∈ typeMinima ts → t2 ∈ typeMinima ts →
      typeIsSubtype t2 t1 = true → typeEqual t1 t2 = true) ∧
    (∀ (ts : List Ty) (t1 t2 : Ty), t1 ∈ typeMaxima ts → t2 ∈ typeMaxima ts →
      typeIsSubtype t1 t2 = true → typeEqual t1 t2 = true) := by
  constructor
  · intro ts t1 t2 h1 h2 hsub
    simp only [typeMinima, List.mem_filter] at h1 h2
    have hall := h1.2
    rw [List.all_eq_true] at hall
    have h := hall t2 h2.1
    rw [hsub] at h
    simpa using h
  · intro ts t1 t2 h1 h2 hsub
    simp only [typeMaxima, List.mem_filter] at h1 h2
    have hall := h1.2
    rw [List.all_eq_true] at hall
    have h := hall t2 h2.1
    rw [hsub] at h
    simpa using h

/-- Witness for the amended C7 at a concrete input: the number primitive is
kept by typeMinima and typeMaxima of the singleton list, and both halves of
the theorem apply to it. -/
theorem typeMinima_maxima_pairwise_incomparable_witness :
    typeEqual (Ty.primitive .number) (Ty.primitive .number) = true ∧
    typeEqual (Ty.primitive .number) (Ty.primitive .number) = true := by
  have hmin : Ty.primitive .number ∈ typeMinima [Ty.primitive .number] := by
    have h : typeMinima [Ty.primitive .number] = [Ty.primitive .number] := rfl
    rw [h]
    exact List.mem_singleton_self _
  have hmax : Ty.primitive .number ∈ typeMaxima [Ty.primitive .number] := by
    have h : typeMaxima [Ty.primitive .number] = [Ty.primitive .number] := rfl
    rw [h]
    exact List.mem_singleton_self _
  exact ⟨typeMinima_maxima_pairwise_incomparable.1 [.primitive .number] _ _
      hmin hmin rfl,
    typeMinima_maxima_pairwise_incomparable.2 [.primitive .number] _ _
      hmax hmax rfl⟩

/-- The table produced by specializing numberRowTable under the literal 1
check. -/
def numberRowSpecialized : MatchTable :=
  { input := [.literal (.num 1)]
    occurrences := []
    caseIndices := [0]
    patternRows := [[]] }

/-- Helper: the row loop of specializeSuccess, when it succeeds, computes
exactly the filterMap that keeps a row iff the checked type with unknown
arguments is a subtype of the row's pattern with unknown arguments,
replacing the pattern cell by its accessed children. -/
theorem specializeSuccessRows_ok_some_eq (Tu : Ty)
    (args : List (Union × Accessor)) (j : Nat) :
    ∀ (pairs out : List (Nat × List Union)),
      specializeSuccessRows Tu args j pairs = .ok (some out) →
      out = pairs.filterMap (fun cr =>
        match cr.2[j]?.bind exactlyOne with
        | none => none
        | some p =>
          if typeIsSubtype Tu (typeMakeArgumentsUnknown p) then
            (typeAccessUnionAll p args).map (fun children =>
              (cr.1, cr.2.take j ++ children ++ cr.2.drop (j + 1)))
          else
            none) := by
  intro pairs
  induction pairs with
  | nil =>
    intro out h
    simp only [specializeSuccessRows, Except.ok.injEq, Option.some.injEq] at h
    simp [h.symm]
  | cons hd rest ih =>
    intro out h
    obtain ⟨ci, row⟩ := hd
    simp only [specializeSuccessRows] at h
    split at h
    · simp at h
    · rename_i patternUnion hcell
      split at h
      · simp at h
      · rename_i p hone
        split at h
        · rename_i hnsub
          have hsub : typeIsSubtype Tu (typeMakeArgumentsUnknown p) = false := by
            simpa using hnsub
          rw [ih out h, List.filterMap_cons]
          simp [hcell, hone, hsub]
        · rename_i hnsub
          have hsub : typeIsSubtype Tu (typeMakeArgumentsUnknown p) = true := by
            simpa using hnsub
          split at h
          · simp at h
          · rename_i children hacc
            split at h
            · simp at h
            · simp at h
            · rename_i out1 hrest
              simp only [Except.ok.injEq, Option.some.injEq] at h
              rw [← h, ih out1 hrest, List.filterMap_cons]
              simp [hcell, hone, hsub, hacc]

/-- C2 amended: under the success of specializeSuccess(m, T, j), a row
whose single pattern p at column j satisfies that makeArgumentsUnknown(T)
is NOT a SUBTYPE of makeArgumentsUnknown(p) is dropped (the claim had the
converse, supertype), and every other row survives with column j replaced
by the children typeAccessUnion(p, accessor) for each argument accessor of
T. -/
theorem specializeSuccess_keeps_iff_check_subtype_pattern
    (m : MatchTable) (T : Ty) (j : Nat) (r : MatchTable)
    (h : matchTableSpecializeSuccess m T j = .ok (some r)) :
    r.caseIndices.zip r.patternRows =
      (m.caseIndices.zip m.patternRows).filterMap (fun cr =>
        match cr.2[j]?.bind exactlyOne with
        | none => none
        | some p =>
          if typeIsSubtype (typeMakeArgumentsUnknown T)
              (typeMakeArgumentsUnknown p) then
            (typeAccessUnionAll p (typeGetArguments T)).map (fun children =>
              (cr.1, cr.2.take j ++ children ++ cr.2.drop (j + 1)))
          else
            none) := by
  simp only [matchTableSpecializeSuccess] at h
  split at h
  · simp at h
  · rename_i occurrence hocc
    split at h
    · simp at h
    · simp at h
    · rename_i out hrows
      simp only [Except.ok.injEq, Option.some.injEq] at h
      rw [← h]
      simp only [List.zip_map']
      have hid : (fun x : Nat × List Union => (x.1, x.2)) = id := by
        funext x
        rfl
      rw [hid, List.map_id]
      exact specializeSuccessRows_ok_some_eq _ _ _ _ _ hrows

/-- Witness for the amended C2 at a concrete input: the number-pattern row
survives the literal-1 check (the check type is a subtype of the pattern)
with its cell replaced by the (empty) children list. -/
theorem specializeSuccess_keeps_iff_check_subtype_pattern_witness :
    numberRowSpecialized.caseIndices.zip numberRowSpecialized.patternRows =
      (numberRowTable.caseIndices.zip numberRowTable.patternRows).filterMap
        (fun cr =>
          match cr.2[(0 : Nat)]?.bind exactlyOne with
          | none => none
          | some p =>
            if typeIsSubtype
                (typeMakeArgumentsUnknown (Ty.literal (.num 1)))
                (typeMakeArgumentsUnknown p) then
              (typeAccessUnionAll p
                (typeGetArguments (Ty.literal (.num 1)))).map (fun children =>
                  (cr.1, cr.2.take 0 ++ children ++ cr.2.drop (0 + 1)))
            else
              none) :=
  specializeSuccess_keeps_iff_check_subtype_pattern numberRowTable
    (Ty.literal (.num 1)) 0 numberRowSpecialized (by rfl)

/-- Helper: literalEqual is reflexive. -/
theorem literalEqual_refl (l : Literal) : literalEqual l l = true := by
  cases l <;> simp [literalEqual]

/-- Helper: a type with its arguments made unknown keeps its outer
constructor: typeEqualConstructor accepts the pair. -/
theorem typeEqualConstructor_makeArgumentsUnknown (t : Ty) :
    typeEqualConstructor (typeMakeArgumentsUnknown t) t = true := by
  cases t with
  | unknown => rfl
  | literal l => simp [typeMakeArgumentsUnknown, typeEqualConstructor, literalEqual_refl]
  | primitive p => simp [typeMakeArgumentsUnknown, typeEqualConstructor, primitiveEqual]
  | tuple elements => simp [typeMakeArgumentsUnknown, typeEqualConstructor]
  | array element => rfl
  | object fields =>
    simp only [typeMakeArgumentsUnknown, typeEqualConstructor,
      makeObjectFieldsUnknown, objectFieldNamesEqual, List.length_map,
      beq_self_eq_true, Bool.true_and, List.all_map, List.all_eq_true]
    intro f hf
    exact List.any_eq_true.mpr ⟨f, hf, by simp⟩
  | record value => rfl

/-- Helper: the rows kept by the specializeFail loop are among the rows it
was given. -/
theorem specializeFailRows_subset (T : Ty) (j : Nat) :
    ∀ (pairs out : List (Nat × List Union)),
      specializeFailRows T j pairs = some out → ∀ q ∈ out, q ∈ pairs := by
  intro pairs
  induction pairs with
  | nil =>
    intro out h q hq
    simp only [specializeFailRows, Option.some.injEq] at h
    rw [← h] at hq
    simp at hq
  | cons hd rest ih =>
    intro out h q hq
    obtain ⟨ci, row⟩ := hd
    simp only [specializeFailRows] at h
    split at h
    · simp at h
    · rename_i patternUnion hcell
      split at h
      · simp at h
      · rename_i p hone
        split at h
        · simp at h
        · rename_i out1 hrest
          split at h
          · simp only [Option.some.injEq] at h
            rw [← h] at hq
            exact List.mem_cons_of_mem _ (ih out1 hrest q hq)
          · simp only [Option.some.injEq] at h
            rw [← h] at hq
            cases hq with
            | head => exact List.mem_cons_self _ _
            | tail _ hq1 => exact List.mem_cons_of_mem _ (ih out1 hrest q hq1)

/-- Helper: the specializeFail loop never returns more rows than given, and
returns strictly fewer as soon as some given row's single pattern at the
column has the same constructor as the checked type. -/
theorem specializeFailRows_length_lt (T : Ty) (j : Nat) :
    ∀ (pairs out : List (Nat × List Union)),
      specializeFailRows T j pairs = some out →
      out.length ≤ pairs.length ∧
        (∀ ci row p, (ci, row) ∈ pairs → row[j]? = some [p] →
          typeEqualConstructor T p = true → out.length < pairs.length) := by
  intro pairs
  induction pairs with
  | nil =>
    intro out h
    simp only [specializeFailRows, Option.some.injEq] at h
    refine ⟨by simp [← h], ?_⟩
    intro ci row p hmem
    simp at hmem
  | cons hd rest ih =>
    intro out h
    obtain ⟨ci0, row0⟩ := hd
    simp only [specializeFailRows] at h
    split at h
    · simp at h
    · rename_i patternUnion hcell
      split at h
      · simp at h
      · rename_i p0 hone
        split at h
        · simp at h
        · rename_i out1 hrest
          obtain ⟨ihle, ihlt⟩ := ih out1 hrest
          split at h
          · rename_i hctor
            simp only [Option.some.injEq] at h
            rw [← h]
            refine ⟨Nat.le_succ_of_le ihle, ?_⟩
            intro _ _ _ _ _ _
            exact Nat.lt_succ_of_le ihle
          · rename_i hctor
            simp only [Option.some.injEq] at h
            rw [← h]
            refine ⟨by simpa using Nat.succ_le_succ ihle, ?_⟩
            intro ci row p hmem hrowcell hpctor
            cases hmem with
            | head =>
              rw [hrowcell] at hcell
              have hpu : patternUnion = [p] := by
                simpa using hcell.symm
              rw [hpu] at hone
              have hp0 : p0 = p := by
                simpa [exactlyOne] using hone.symm
              rw [hp0] at hctor
              exact absurd hpctor hctor
            | tail _ hmem1 =>
              have := ihlt ci row p hmem1 hrowcell hpctor
              simpa using Nat.succ_lt_succ this

/-- Helper: when two lists have equal length, every member of the second is
the second component of some pair of their zip. -/
theorem mem_zip_right_of_length_eq :
    ∀ (l1 : List α) (l2 : List β) (b : β), l1.length = l2.length →
      b ∈ l2 → ∃ a, (a, b) ∈ l1.zip l2 := by
  intro l1
  induction l1 with
  | nil =>
    intro l2 b hlen hb
    cases l2 with
    | nil => simp at hb
    | cons x xs => simp at hlen
  | cons a0 rest ih =>
    intro l2 b hlen hb
    cases l2 with
    | nil => simp at hb
    | cons x xs =>
      cases hb with
      | head => exact ⟨a0, List.mem_cons_self _ _⟩
      | tail _ hb1 =>
        obtain ⟨a, ha⟩ := ih xs b (by simpa using hlen) hb1
        exact ⟨a, List.mem_cons_of_mem _ ha⟩

/-- C4 amended: the fail-branch call strictly decreases the row count: when
the checked type is makeArgumentsUnknown of the single pattern of some row
at column j (as the compiler's checks always are, being built from a member
of the column), specializeFail removes at least that row.  The
success-branch half of the original claim is dropped (see the
counterexample: the success-branch composite can leave the total pattern
size unchanged). -/
theorem specializeFail_decreases_row_count
    (m : MatchTable) (p : Ty) (j : Nat) (r : MatchTable)
    (hlen : m.caseIndices.length = m.patternRows.length)
    (row : List Union) (hrow : row ∈ m.patternRows)
    (hcell : row[j]? = some [p])
    (h : matchTableSpecializeFail m (typeMakeArgumentsUnknown p) j = some r) :
    matchTableRowCount r < matchTableRowCount m := by
  simp only [matchTableSpecializeFail] at h
  split at h
  · simp at h
  · rename_i out hrows
    simp only [Option.some.injEq] at h
    obtain ⟨ci, hmem⟩ := mem_zip_right_of_length_eq m.caseIndices
      m.patternRows row hlen hrow
    have hlt := (specializeFailRows_length_lt _ _ _ _ hrows).2 ci row p hmem
      hcell (typeEqualConstructor_makeArgumentsUnknown p)
    have hziplen : (m.caseIndices.zip m.patternRows).length =
        m.patternRows.length := by
      rw [List.length_zip, hlen, Nat.min_self]
    rw [← h]
    simpa [matchTableRowCount, hziplen] using hlt

/-- Witness for the amended C4 at a concrete input: specializing the
two-row overlap table away from the {a: unknown} check (the arguments-made-
unknown form of its first row's pattern) keeps only the second row. -/
theorem specializeFail_decreases_row_count_witness :
    matchTableRowCount
        { input := [.unknown]
          occurrences := [[]]
          caseIndices := [1]
          patternRows := ([[[objFieldB]]] : List (List Union)) } <
      matchTableRowCount overlapTable :=
  specializeFail_decreases_row_count overlapTable objFieldA 0 _ rfl
    [[objFieldA]] (List.mem_cons_self _ _) rfl rfl

/-- Helper: every member of a Cartesian product is as long as the list of
arrays. -/
theorem cartesianProduct_mem_length [Inhabited α] (arrays : List (List α))
    (ts : List α) (h : ts ∈ cartesianProduct arrays) :
    ts.length = arrays.length := by
  simp only [cartesianProduct, List.mem_map] at h
  obtain ⟨i, _, hts⟩ := h
  rw [← hts]
  simp only [List.length_map, List.length_zip, List.length_scanl]
  omega

/-- Helper: when the children collection succeeds it yields one union per
argument accessor. -/
theorem typeAccessUnionAll_length (t : Ty) :
    ∀ (args : List (Union × Accessor)) (children : List Union),
      typeAccessUnionAll t args = some children →
      children.length = args.length := by
  intro args
  induction args with
  | nil =>
    intro children h
    simp only [typeAccessUnionAll, Option.some.injEq] at h
    simp [← h]
  | cons arg rest ih =>
    intro children h
    simp only [typeAccessUnionAll] at h
    split at h
    · simp at h
    · rename_i u hu
      split at h
      · simp at h
      · rename_i us hus
        simp only [Option.some.injEq] at h
        rw [← h]
        simpa using ih us hus

/-- Helper: the shape of a successful specializeSuccess result: the new
occurrence list splices the argument occurrences in place of column j, and
the case indices and rows come unzipped from the row loop. -/
theorem matchTableSpecializeSuccess_ok_shape
    (m : MatchTable) (T : Ty) (j : Nat) (r : MatchTable)
    (h : matchTableSpecializeSuccess m T j = .ok (some r)) :
    ∃ occurrence out, m.occurrences[j]? = some occurrence ∧
      specializeSuccessRows (typeMakeArgumentsUnknown T)
        (typeGetArguments T) j (m.caseIndices.zip m.patternRows) =
        .ok (some out) ∧
      r.occurrences = m.occurrences.take j ++
        (typeGetArguments T).map (fun arg => occurrence ++ [arg.2]) ++
        m.occurrences.drop (j + 1) ∧
      r.caseIndices = out.map (fun q => q.1) ∧
      r.patternRows = out.map (fun q => q.2) := by
  simp only [matchTableSpecializeSuccess] at h
  split at h
  · simp at h
  · rename_i occurrence hocc
    split at h
    · simp at h
    · simp at h
    · rename_i out hrows
      simp only [Except.ok.injEq, Option.some.injEq] at h
      exact ⟨occurrence, out, hocc, hrows, by rw [← h], by rw [← h],
        by rw [← h]⟩

/-- C8: every table produced by specializeSuccess, specializeFail, expand
or remove from a well-formed table is again well-formed: all rows as wide
as the occurrence list, and as many case indices as rows. -/
theorem matchTable_operations_preserve_wellformedness
    (m : MatchTable) (hwf : m.WellFormed) :
    (matchTableExpand m).WellFormed ∧
    (matchTableRemove m).WellFormed ∧
    (∀ T j r, matchTableSpecializeFail m T j = some r → r.WellFormed) ∧
    (∀ T j r, matchTableSpecializeSuccess m T j = .ok (some r) →
      r.WellFormed) := by
  obtain ⟨hlen, hwidth⟩ := hwf
  refine ⟨⟨by simp [matchTableExpand], ?_⟩, ⟨by simp [matchTableRemove], ?_⟩,
    ?_, ?_⟩
  · -- expand: rows are Cartesian-product picks from original rows
    intro row1 hrow1
    simp only [matchTableExpand, List.mem_map, List.mem_flatMap] at hrow1
    obtain ⟨⟨ci, row2⟩, ⟨⟨ci0, row0⟩, hmem0, hmem2⟩, hrow2⟩ := hrow1
    simp only [List.mem_map] at hmem2
    obtain ⟨ts, hts, hmk⟩ := hmem2
    have hr0 : row0 ∈ m.patternRows := (List.of_mem_zip hmem0).2
    rw [← hrow2, ← (Prod.mk.injEq ..).mp hmk |>.2]
    simp only [matchTableExpand, List.length_map]
    rw [cartesianProduct_mem_length row0 ts hts]
    exact hwidth row0 hr0
  · -- remove: rows are a selection of the original rows
    intro row1 hrow1
    simp only [matchTableRemove, List.mem_map, List.mem_filterMap] at hrow1
    obtain ⟨⟨ci, row2⟩, ⟨⟨i, ⟨ci0, row0⟩⟩, hmem0, hkeep⟩, hrow2⟩ := hrow1
    have hr0 : (ci0, row0) ∈ m.caseIndices.zip m.patternRows :=
      List.snd_mem_of_mem_enum hmem0
    simp only [matchTableRemove]
    split at hkeep
    · simp only [Option.some.injEq] at hkeep
      rw [← hrow2, ← (Prod.mk.injEq ..).mp hkeep |>.2]
      exact hwidth row0 (List.of_mem_zip hr0).2
    · simp at hkeep
  · -- specializeFail
    intro T j r h
    simp only [matchTableSpecializeFail] at h
    split at h
    · simp at h
    · rename_i out hrows
      simp only [Option.some.injEq] at h
      constructor
      · rw [← h]
        simp
      · intro row1 hrow1
        rw [← h] at hrow1
        simp only [List.mem_map] at hrow1
        obtain ⟨⟨ci, row2⟩, hmem, hrow2⟩ := hrow1
        have hpair := specializeFailRows_subset T j _ out hrows _ hmem
        rw [← hrow2, ← h]
        exact hwidth row2 (List.of_mem_zip hpair).2
  · -- specializeSuccess
    intro T j r h
    obtain ⟨occurrence, out, hocc, hrows, hroccs, hrcis, hrrows⟩ :=
      matchTableSpecializeSuccess_ok_shape m T j r h
    have hj : j < m.occurrences.length := by
      have := List.getElem?_eq_some.mp hocc
      exact this.1
    have hocclen : r.occurrences.length =
        j + (typeGetArguments T).length + (m.occurrences.length - (j + 1)) := by
      rw [hroccs]
      simp only [List.length_append, List.length_take, List.length_drop,
        List.length_map]
      omega
    constructor
    · rw [hrcis, hrrows]
      simp
    · intro row1 hrow1
      rw [hrrows] at hrow1
      simp only [List.mem_map] at hrow1
      obtain ⟨⟨ci, row2⟩, hmem, hrow2⟩ := hrow1
      have hchar := specializeSuccessRows_ok_some_eq
        (typeMakeArgumentsUnknown T) (typeGetArguments T) j _ out hrows
      rw [hchar] at hmem
      simp only [List.mem_filterMap] at hmem
      obtain ⟨⟨ci0, row0⟩, hmem0, hf⟩ := hmem
      have hr0 : row0 ∈ m.patternRows := (List.of_mem_zip hmem0).2
      have hw0 : row0.length = m.occurrences.length := hwidth row0 hr0
      split at hf
      · simp at hf
      · rename_i p hp
        split at hf
        · cases hacc : typeAccessUnionAll p (typeGetArguments T) with
          | none =>
            rw [hacc] at hf
            simp at hf
          | some children =>
            rw [hacc] at hf
            simp only [Option.map_some', Option.some.injEq] at hf
            have hclen := typeAccessUnionAll_length p _ children hacc
            rw [← hrow2, ← (Prod.mk.injEq ..).mp hf |>.2]
            rw [hocclen]
            simp only [List.length_append, List.length_take,
              List.length_drop, hclen]
            omega
        · simp at hf

/-- Witness for C8 at a concrete input: the overlap table is well-formed
and so are the tables produced from it by expand, remove, specializeFail
and specializeSuccess under the {a: unknown} check. -/
theorem matchTable_operations_preserve_wellformedness_witness :
    (matchTableExpand overlapTable).WellFormed ∧
    (matchTableRemove overlapTable).WellFormed ∧
    (∀ r, matchTableSpecializeFail overlapTable
      (typeMakeArgumentsUnknown objFieldA) 0 = some r → r.WellFormed) ∧
    (∀ r, matchTableSpecializeSuccess overlapTable
      (typeMakeArgumentsUnknown objFieldA) 0 = .ok (some r) →
      r.WellFormed) := by
  have hwf : overlapTable.WellFormed := by
    constructor
    · rfl
    · intro row hrow
      have hrow2 : row ∈ [[[objFieldA]], [[objFieldB]]] := hrow
      cases hrow2 with
      | head => rfl
      | tail _ h2 =>
        cases h2 with
        | head => rfl
        | tail _ h3 => cases h3
  obtain ⟨h1, h2, h3, h4⟩ :=
    matchTable_operations_preserve_wellformedness overlapTable hwf
  exact ⟨h1, h2, fun r hr => h3 _ 0 r hr, fun r hr => h4 _ 0 r hr⟩

/-- Helper: folding the length product as cartesianProduct does computes
the product of the lengths. -/
theorem foldl_mul_length (arrays : List (List α)) :
    ∀ acc : Nat, arrays.foldl (fun acc a => acc * a.length) acc =
      acc * (arrays.map List.length).prod := by
  induction arrays with
  | nil =>
    intro acc
    simp
  | cons hd tl ih =>
    intro acc
    simp [ih, Nat.mul_assoc]

/-- Helper: a Cartesian product over a list containing the empty array is
empty. -/
theorem cartesianProduct_eq_nil_of_mem_nil [Inhabited α]
    (arrays : List (List α)) (h : ([] : List α) ∈ arrays) :
    cartesianProduct arrays = [] := by
  have h0 : (arrays.map List.length).prod = 0 :=
    List.prod_eq_zero (List.mem_map.mpr ⟨[], h, rfl⟩)
  simp only [cartesianProduct]
  rw [foldl_mul_length, h0]
  simp

/-- Helper: erasing an index commutes with zipping. -/
theorem zip_eraseIdx_comm :
    ∀ (l1 : List α) (l2 : List β) (i : Nat),
      (l1.zip l2).eraseIdx i = (l1.eraseIdx i).zip (l2.eraseIdx i) := by
  intro l1
  induction l1 with
  | nil =>
    intro l2 i
    simp
  | cons a as ih =>
    intro l2 i
    cases l2 with
    | nil => simp
    | cons b bs =>
      cases i with
      | zero => simp
      | succ n => simp [ih bs n]

/-- Helper: an element sent to the empty list contributes nothing to a
flatMap, so erasing it does not change the result. -/
theorem flatMap_eraseIdx_of_eq_nil (f : α → List β) :
    ∀ (l : List α) (i : Nat) (x : α), l[i]? = some x → f x = [] →
      l.flatMap f = (l.eraseIdx i).flatMap f := by
  intro l
  induction l with
  | nil =>
    intro i x h
    simp at h
  | cons a as ih =>
    intro i x h hfx
    cases i with
    | zero =>
      simp only [List.getElem?_cons_zero, Option.some.injEq] at h
      rw [← h] at hfx
      simp [hfx]
    | succ n =>
      simp only [List.getElem?_cons_succ] at h
      simp [ih n x h hfx]

/-- C9: a row containing an empty-union cell contributes zero rows to
matchTableExpand: the expanded table is the same as if the row (and its
case index) had been deleted, so that case silently disappears. -/
theorem matchTableExpand_drops_empty_cell_row
    (m : MatchTable) (i : Nat) (row : List Union)
    (hlen : m.caseIndices.length = m.patternRows.length)
    (hrow : m.patternRows[i]? = some row) (hempty : ([] : Union) ∈ row) :
    matchTableExpand m =
      matchTableExpand
        { input := m.input
          occurrences := m.occurrences
          caseIndices := m.caseIndices.eraseIdx i
          patternRows := m.patternRows.eraseIdx i } := by
  have hi : i < m.patternRows.length := (List.getElem?_eq_some.mp hrow).1
  have hic : i < m.caseIndices.length := by
    rw [hlen]
    exact hi
  obtain ⟨ci, hci⟩ : ∃ ci, m.caseIndices[i]? = some ci :=
    ⟨_, List.getElem?_eq_getElem hic⟩
  have hzip : (m.caseIndices.zip m.patternRows)[i]? = some (ci, row) :=
    List.getElem?_zip_eq_some.mpr ⟨hci, hrow⟩
  have hnil : (cartesianProduct row).map
      (fun types => (ci, types.map (fun t => ([t] : Union)))) = [] := by
    rw [cartesianProduct_eq_nil_of_mem_nil row hempty]
    simp
  simp only [matchTableExpand]
  rw [← zip_eraseIdx_comm]
  rw [← flatMap_eraseIdx_of_eq_nil _ _ i (ci, row) hzip hnil]

/-- The two-row table whose first row has an empty-union cell. -/
def emptyCellRowTable : MatchTable :=
  { input := [.unknown]
    occurrences := [[], []]
    caseIndices := [7, 8]
    patternRows := [[[.primitive .number], []],
      [[.primitive .string], [.primitive .number]]] }

/-- Witness for C9 at a concrete input: expanding the two-row table whose
first row has an empty cell gives the same table as expanding without that
row: case 7 disappears. -/
theorem matchTableExpand_drops_empty_cell_row_witness :
    matchTableExpand emptyCellRowTable =
      matchTableExpand
        { input := emptyCellRowTable.input
          occurrences := emptyCellRowTable.occurrences
          caseIndices := emptyCellRowTable.caseIndices.eraseIdx 0
          patternRows := emptyCellRowTable.patternRows.eraseIdx 0 } :=
  matchTableExpand_drops_empty_cell_row emptyCellRowTable 0
    [[.primitive .number], []] rfl rfl
    (List.Mem.tail _ (List.Mem.head _))

end MT

